import Mathlib

/-!
Verification development for the pycont syringe-pump library.

The Python sources are shallowly embedded: Python floats are modelled as
exact rationals, byte strings as lists of naturals, and text as lists of
characters.  Each definition mirrors the corresponding Python function from
the repository.
-/

namespace Pycont

/-! Python numeric helpers.

Python round with no digits argument rounds half to even and returns an
integer; int applied to that result is the identity. -/

/-- Model of Python round on a rational: round half to even. -/
def roundHalfEven (q : ℚ) : ℤ :=
  if q - (⌊q⌋ : ℚ) < 1/2 then ⌊q⌋
  else if 1/2 < q - (⌊q⌋ : ℚ) then ⌊q⌋ + 1
  else if ⌊q⌋ % 2 = 0 then ⌊q⌋ else ⌊q⌋ + 1

theorem abs_roundHalfEven_sub_le (q : ℚ) : |(roundHalfEven q : ℚ) - q| ≤ 1/2 := by
  unfold roundHalfEven
  have h0 : (⌊q⌋ : ℚ) ≤ q := Int.floor_le q
  have h1 : q < ⌊q⌋ + 1 := Int.lt_floor_add_one q
  by_cases hc : q - (⌊q⌋ : ℚ) < 1/2
  · rw [if_pos hc, abs_le]
    constructor <;> linarith
  · rw [if_neg hc]
    by_cases hc2 : 1/2 < q - (⌊q⌋ : ℚ)
    · rw [if_pos hc2, abs_le]
      push_cast
      constructor <;> linarith
    · rw [if_neg hc2]
      have heq : q - (⌊q⌋ : ℚ) = 1/2 := le_antisymm (not_lt.mp hc2) (not_lt.mp hc)
      by_cases hpar : ⌊q⌋ % 2 = 0
      · rw [if_pos hpar, abs_le]
        constructor <;> linarith
      · rw [if_neg hpar, abs_le]
        push_cast
        constructor <;> linarith

theorem roundHalfEven_le_of_le_int (q : ℚ) (m : ℤ) (h : q ≤ (m : ℚ)) :
    roundHalfEven q ≤ m := by
  unfold roundHalfEven
  have hfl : ⌊q⌋ ≤ m := by
    have := Int.floor_le_floor h
    simpa using this
  by_cases hc : q - (⌊q⌋ : ℚ) < 1/2
  · rw [if_pos hc]; exact hfl
  · have hhalf : (1:ℚ)/2 ≤ q - (⌊q⌋ : ℚ) := not_lt.mp hc
    have hlt : ⌊q⌋ < m := by
      rcases lt_or_eq_of_le hfl with h' | h'
      · exact h'
      · exfalso
        have hq : q ≤ (⌊q⌋ : ℚ) := by rw [h']; exact_mod_cast h
        linarith
    rw [if_neg hc]
    by_cases hc2 : 1/2 < q - (⌊q⌋ : ℚ)
    · rw [if_pos hc2]; omega
    · rw [if_neg hc2]
      by_cases hpar : ⌊q⌋ % 2 = 0
      · rw [if_pos hpar]; omega
      · rw [if_neg hpar]; omega

theorem roundHalfEven_nonneg (q : ℚ) (h : 0 ≤ q) : 0 ≤ roundHalfEven q := by
  unfold roundHalfEven
  have h0 : (0:ℤ) ≤ ⌊q⌋ := Int.floor_nonneg.mpr h
  by_cases hc : q - (⌊q⌋ : ℚ) < 1/2
  · rw [if_pos hc]; exact h0
  · rw [if_neg hc]
    by_cases hc2 : 1/2 < q - (⌊q⌋ : ℚ)
    · rw [if_pos hc2]; omega
    · rw [if_neg hc2]
      by_cases hpar : ⌊q⌋ % 2 = 0
      · rw [if_pos hpar]; exact h0
      · rw [if_neg hpar]; omega

theorem roundHalfEven_intCast (m : ℤ) : roundHalfEven (m : ℚ) = m := by
  unfold roundHalfEven
  rw [Int.floor_intCast]
  rw [if_pos]
  norm_num

theorem roundHalfEven_zero : roundHalfEven 0 = 0 := by
  have := roundHalfEven_intCast 0
  simpa using this

/-! UTF-8 codec, modelling Python bytes.decode and str.encode. -/

/-- UTF-8 encoding of a single character. -/
def utf8EncodeChar (c : Char) : List ℕ :=
  let n := c.toNat
  if n < 0x80 then [n]
  else if n < 0x800 then [0xC0 + n / 64, 0x80 + n % 64]
  else if n < 0x10000 then [0xE0 + n / 4096, 0x80 + (n / 64) % 64, 0x80 + n % 64]
  else [0xF0 + n / 262144, 0x80 + (n / 4096) % 64, 0x80 + (n / 64) % 64, 0x80 + n % 64]

/-- UTF-8 encoding of a string (as a character list). -/
def utf8Encode (s : List Char) : List ℕ :=
  s.foldr (fun c acc => utf8EncodeChar c ++ acc) []

/-- Continuation byte test for UTF-8 decoding. -/
def isCont (b : ℕ) : Bool := 0x80 ≤ b && b ≤ 0xBF

/-- Strict UTF-8 decoding (rejecting overlong forms, surrogates and
out-of-range code points, as Python bytes.decode does).  Returns none
exactly when Python raises UnicodeDecodeError. -/
def utf8Decode? : List ℕ → Option (List Char)
  | [] => some []
  | b1 :: rest =>
    if b1 ≤ 0x7F then
      match utf8Decode? rest with
      | some cs => some (Char.ofNat b1 :: cs)
      | none => none
    else if 0xC2 ≤ b1 && b1 ≤ 0xDF then
      match rest with
      | b2 :: rest2 =>
        if isCont b2 then
          match utf8Decode? rest2 with
          | some cs => some (Char.ofNat ((b1 - 0xC0) * 64 + (b2 - 0x80)) :: cs)
          | none => none
        else none
      | [] => none
    else if 0xE0 ≤ b1 && b1 ≤ 0xEF then
      match rest with
      | b2 :: b3 :: rest3 =>
        if (if b1 = 0xE0 then 0xA0 ≤ b2 && b2 ≤ 0xBF
            else if b1 = 0xED then 0x80 ≤ b2 && b2 ≤ 0x9F
            else isCont b2) && isCont b3 then
          match utf8Decode? rest3 with
          | some cs =>
            some (Char.ofNat ((b1 - 0xE0) * 4096 + (b2 - 0x80) * 64 + (b3 - 0x80)) :: cs)
          | none => none
        else none
      | _ => none
    else if 0xF0 ≤ b1 && b1 ≤ 0xF4 then
      match rest with
      | b2 :: b3 :: b4 :: rest4 =>
        if (if b1 = 0xF0 then 0x90 ≤ b2 && b2 ≤ 0xBF
            else if b1 = 0xF4 then 0x80 ≤ b2 && b2 ≤ 0x8F
            else isCont b2) && isCont b3 && isCont b4 then
          match utf8Decode? rest4 with
          | some cs =>
            some (Char.ofNat
              ((b1 - 0xF0) * 262144 + (b2 - 0x80) * 4096 + (b3 - 0x80) * 64 + (b4 - 0x80)) :: cs)
          | none => none
        else none
      | _ => none
    else none

/-- Helper turning a Lean string literal into the character-list representation. -/
def strChars (s : String) : List Char := s.toList

/-! Data model from src/pycont/dtprotocol.py. -/

/-- Bus addresses (dtprotocol.py Address enum: 16 switch positions, the
bus master, and broadcast). -/
inductive Address where
  | Switch0 | Switch1 | Switch2 | Switch3
  | Switch4 | Switch5 | Switch6 | Switch7
  | Switch8 | Switch9 | SwitchA | SwitchB
  | SwitchC | SwitchD | SwitchE | SwitchF
  | Master | Broadcast
deriving DecidableEq

/-- The wire character of each Address (the Python enum member values). -/
def Address.char : Address → Char
  | .Switch0 => '1'
  | .Switch1 => '2'
  | .Switch2 => '3'
  | .Switch3 => '4'
  | .Switch4 => '5'
  | .Switch5 => '6'
  | .Switch6 => '7'
  | .Switch7 => '8'
  | .Switch8 => '9'
  | .Switch9 => ':'
  | .SwitchA => ';'
  | .SwitchB => '<'
  | .SwitchC => '='
  | .SwitchD => '>'
  | .SwitchE => '?'
  | .SwitchF => '@'
  | .Master => '0'
  | .Broadcast => '_'

/-- All addresses, used to invert the enum lookup. -/
def Address.all : List Address :=
  [.Switch0, .Switch1, .Switch2, .Switch3, .Switch4, .Switch5, .Switch6, .Switch7,
   .Switch8, .Switch9, .SwitchA, .SwitchB, .SwitchC, .SwitchD, .SwitchE, .SwitchF,
   .Master, .Broadcast]

/-- Model of the Python enum call Address(c): some member whose value is c,
none when Python would raise ValueError. -/
def Address.ofChar? (c : Char) : Option Address :=
  Address.all.find? (fun a => a.char = c)

/-- A DT command: an opcode string plus operand string
(dtprotocol.py DTCommand; both fields are UTF-8 encoded on the wire). -/
structure DTCommand where
  command : List Char
  operand : List Char
deriving DecidableEq

/-- Concatenated characters of a command (DTCommand.to_bytes before encoding). -/
def DTCommand.toChars (c : DTCommand) : List Char := c.command ++ c.operand

/-- Start delimiter of a DT frame. -/
def DTStart : Char := '/'

/-- Stop delimiter of a DT frame. -/
def DTStop : Char := '\r'

/-- An instruction packet: address plus command sequence
(dtprotocol.py DTInstructionPacket). -/
structure DTInstructionPacket where
  address : Address
  dtcommands : List DTCommand
deriving DecidableEq

/-- Characters of the framed packet: start delimiter, address character,
the commands, stop delimiter (DTInstructionPacket.to_array). -/
def DTInstructionPacket.toChars (p : DTInstructionPacket) : List Char :=
  DTStart :: p.address.char ::
    (p.dtcommands.foldr (fun c acc => c.toChars ++ acc) [] ++ [DTStop])

/-- Wire bytes of a packet (DTInstructionPacket.to_bytes). -/
def DTInstructionPacket.toBytes (p : DTInstructionPacket) : List ℕ :=
  utf8Encode p.toChars

/-! Response decoding: dtprotocol.py DTStatus. -/

/-- Python str.rstrip default whitespace characters (ASCII part). -/
def pyIsSpace (c : Char) : Bool :=
  c = ' ' || c = '\t' || c = '\n' || c = '\r' || c = '\x0b' || c = '\x0c'

/-- Strip characters matching p from the end of a list (Python str.rstrip). -/
def rstripBy (p : Char → Bool) (s : List Char) : List Char :=
  (s.reverse.dropWhile p).reverse

/-- The stripping pipeline of DTStatus extract response parts:
rstrip default, then rstrip ETX, then lstrip the start delimiter. -/
def pyStripResponse (s : List Char) : List Char :=
  (rstripBy (fun c => c = '\x03') (rstripBy pyIsSpace s)).dropWhile (fun c => c = DTStart)

/-- Outcome of constructing a DTStatus from raw bytes.  decodeErr is the
DTStatusDecodeError raised on invalid UTF-8; indexErr is the uncaught
IndexError raised when info is empty or a master frame lacks a status
character; status is a constructed DTStatus object whose fields may be
None (partially populated). -/
inductive DTDecodeResult where
  | decodeErr
  | indexErr
  | status (address : Option Address) (stat : Option Char) (data : Option (List Char))
deriving DecidableEq

/-- Model of DTStatus extract response parts on the decoded text. -/
def dtExtract (resp : List Char) : DTDecodeResult :=
  match pyStripResponse resp with
  | [] => .indexErr
  | c0 :: rest =>
    match Address.ofChar? c0 with
    | some a =>
      if a = Address.Master then
        match rest with
        | [] => .indexErr
        | s1 :: dataRest => .status (some a) (some s1) (some dataRest)
      else .status (some a) none none
    | none => .status none none none

/-- Model of the full DTStatus constructor on raw bytes. -/
def dtDecode (bytes : List ℕ) : DTDecodeResult :=
  match utf8Decode? bytes with
  | none => .decodeErr
  | some chars => dtExtract chars

/-! Command set and status codes from src/pycont/pump_protocol.py. -/

/-- Pump command set (pump_protocol.py PumpCommand enum). -/
inductive PumpCommand where
  | Execute | InitValveRight | InitValveLeft | InitNoValve | InitValveOnly
  | MicroStepMode | MoveAbsolute | MovePickup | MoveDeliver | SetTopVelocity
  | SetEEPROMPumpConfig | SetEEPROMLowLevelParam | Terminate
  | SelectValveInput | SelectValveOutput | SelectValveBypass | SelectValveExtra
  | ReportStatus | ReportPlungerPosition | ReportStartVelocity | ReportTopVelocity
  | ReportCutoffVelocity | ReportValvePosition | ReportIsInitialized
  | ReportEEPROM | ReportJumper3Way
deriving DecidableEq

/-- Enum member value strings. -/
def PumpCommand.value : PumpCommand → List Char
  | .Execute => ['R']
  | .InitValveRight => ['Z']
  | .InitValveLeft => ['Y']
  | .InitNoValve => ['W']
  | .InitValveOnly => ['w']
  | .MicroStepMode => ['N']
  | .MoveAbsolute => ['A']
  | .MovePickup => ['P']
  | .MoveDeliver => ['D']
  | .SetTopVelocity => ['V']
  | .SetEEPROMPumpConfig => ['U']
  | .SetEEPROMLowLevelParam => ['u']
  | .Terminate => ['T']
  | .SelectValveInput => ['I']
  | .SelectValveOutput => ['O']
  | .SelectValveBypass => ['B']
  | .SelectValveExtra => ['E']
  | .ReportStatus => ['Q']
  | .ReportPlungerPosition => ['?']
  | .ReportStartVelocity => strChars ("?1")
  | .ReportTopVelocity => strChars ("?2")
  | .ReportCutoffVelocity => strChars ("?3")
  | .ReportValvePosition => strChars ("?6")
  | .ReportIsInitialized => strChars ("?19")
  | .ReportEEPROM => strChars ("?27")
  | .ReportJumper3Way => strChars ("?28")

/-- The text Python produces when an enum member is interpolated into a
string with str.format: the class-qualified member name, not its value. -/
def PumpCommand.pyStr : PumpCommand → List Char
  | .Execute => strChars ("PumpCommand.Execute")
  | .InitValveRight => strChars ("PumpCommand.InitValveRight")
  | .InitValveLeft => strChars ("PumpCommand.InitValveLeft")
  | .InitNoValve => strChars ("PumpCommand.InitNoValve")
  | .InitValveOnly => strChars ("PumpCommand.InitValveOnly")
  | .MicroStepMode => strChars ("PumpCommand.MicroStepMode")
  | .MoveAbsolute => strChars ("PumpCommand.MoveAbsolute")
  | .MovePickup => strChars ("PumpCommand.MovePickup")
  | .MoveDeliver => strChars ("PumpCommand.MoveDeliver")
  | .SetTopVelocity => strChars ("PumpCommand.SetTopVelocity")
  | .SetEEPROMPumpConfig => strChars ("PumpCommand.SetEEPROMPumpConfig")
  | .SetEEPROMLowLevelParam => strChars ("PumpCommand.SetEEPROMLowLevelParam")
  | .Terminate => strChars ("PumpCommand.Terminate")
  | .SelectValveInput => strChars ("PumpCommand.SelectValveInput")
  | .SelectValveOutput => strChars ("PumpCommand.SelectValveOutput")
  | .SelectValveBypass => strChars ("PumpCommand.SelectValveBypass")
  | .SelectValveExtra => strChars ("PumpCommand.SelectValveExtra")
  | .ReportStatus => strChars ("PumpCommand.ReportStatus")
  | .ReportPlungerPosition => strChars ("PumpCommand.ReportPlungerPosition")
  | .ReportStartVelocity => strChars ("PumpCommand.ReportStartVelocity")
  | .ReportTopVelocity => strChars ("PumpCommand.ReportTopVelocity")
  | .ReportCutoffVelocity => strChars ("PumpCommand.ReportCutoffVelocity")
  | .ReportValvePosition => strChars ("PumpCommand.ReportValvePosition")
  | .ReportIsInitialized => strChars ("PumpCommand.ReportIsInitialized")
  | .ReportEEPROM => strChars ("PumpCommand.ReportEEPROM")
  | .ReportJumper3Way => strChars ("PumpCommand.ReportJumper3Way")

/-- Status codes (pump_protocol.py StatusCode enum). -/
inductive StatusCode where
  | Ok | InitFailure | InvalidCommand | InvalidOperand | EEPROMFailure
  | NotInitialized | PlungerOverload | ValveOverload | PlungerStuck
deriving DecidableEq, Fintype

/-- The two-character value of each status code; the first character means
idle, the second busy.  The Ok pair is backquote and at-sign. -/
def StatusCode.value : StatusCode → Char × Char
  | .Ok => (Char.ofNat 96, '@')
  | .InitFailure => ('a', 'A')
  | .InvalidCommand => ('b', 'B')
  | .InvalidOperand => ('c', 'C')
  | .EEPROMFailure => ('f', 'F')
  | .NotInitialized => ('g', 'G')
  | .PlungerOverload => ('i', 'I')
  | .ValveOverload => ('j', 'J')
  | .PlungerStuck => ('k', 'K')

/-- StatusCode.is_error from the source. -/
def StatusCode.isError (c : StatusCode) : Bool := c ≠ StatusCode.Ok

/-- All status codes, in enum declaration order. -/
def StatusCode.all : List StatusCode :=
  [.Ok, .InitFailure, .InvalidCommand, .InvalidOperand, .EEPROMFailure,
   .NotInitialized, .PlungerOverload, .ValveOverload, .PlungerStuck]

/-- Decoded pump status (pump_protocol.py PumpStatus named tuple). -/
structure PumpStatus where
  busy : Bool
  code : StatusCode
deriving DecidableEq

/-- PumpStatus.is_error from the source. -/
def PumpStatus.isError (s : PumpStatus) : Bool := s.code.isError

/-- The status decode table built exactly like the source dict
comprehension: for each code, its first value character maps to busy=false
and its second to busy=true. -/
def statusDecodeList : List (Char × PumpStatus) :=
  StatusCode.all.foldr
    (fun code acc =>
      (code.value.1, PumpStatus.mk false code) :: (code.value.2, PumpStatus.mk true code) :: acc)
    []

/-- PumpStatus.try_decode: dictionary lookup on the raw status character. -/
def PumpStatus.tryDecode (c : Char) : Option PumpStatus :=
  (statusDecodeList.find? (fun e => e.1 = c)).map (fun e => e.2)

/-- Valve positions (pump_protocol.py ValvePosition enum). -/
inductive ValvePosition where
  | Input | Output | Bypass | Extra
  | One | Two | Three | Four | Five | Six
deriving DecidableEq

/-- Enum member value characters. -/
def ValvePosition.value : ValvePosition → Char
  | .Input => 'i'
  | .Output => 'o'
  | .Bypass => 'b'
  | .Extra => 'e'
  | .One => '1'
  | .Two => '2'
  | .Three => '3'
  | .Four => '4'
  | .Five => '5'
  | .Six => '6'

/-- ValvePosition.is_6way: membership in the 6-way position list. -/
def ValvePosition.is6way (p : ValvePosition) : Bool :=
  match p with
  | .One | .Two | .Three | .Four | .Five | .Six => true
  | _ => false

/-! Packet forging from pump_protocol.py PumpProtocol (parameterized by the
pump bus address held by the protocol object). -/

/-- DTCommand built from a PumpCommand enum member and operand string
(the DTCommand constructor extracts the enum value). -/
def mkCmd (pc : PumpCommand) (operand : List Char) : DTCommand :=
  DTCommand.mk pc.value operand

/-- PumpProtocol.forge_packet: appends an execute command unless suppressed. -/
def forge_packet (addr : Address) (cmds : List DTCommand) (execute : Bool) :
    DTInstructionPacket :=
  DTInstructionPacket.mk addr
    (if execute then cmds ++ [mkCmd PumpCommand.Execute []] else cmds)

/-- PumpProtocol.forge_valve_input_packet. -/
def forge_valve_input_packet (addr : Address) : DTInstructionPacket :=
  forge_packet addr [mkCmd PumpCommand.SelectValveInput []] true

/-- PumpProtocol.forge_valve_output_packet. -/
def forge_valve_output_packet (addr : Address) : DTInstructionPacket :=
  forge_packet addr [mkCmd PumpCommand.SelectValveOutput []] true

/-- PumpProtocol.forge_valve_bypass_packet. -/
def forge_valve_bypass_packet (addr : Address) : DTInstructionPacket :=
  forge_packet addr [mkCmd PumpCommand.SelectValveBypass []] true

/-- PumpProtocol.forge_valve_extra_packet.  The source (pump_protocol.py
line 405) forges PumpCommand.SelectValveBypass here, not SelectValveExtra. -/
def forge_valve_extra_packet (addr : Address) : DTInstructionPacket :=
  forge_packet addr [mkCmd PumpCommand.SelectValveBypass []] true

/-- PumpProtocol.forge_valve_6way_packet.  The source builds the command
string with str.format applied to the PumpCommand.SelectValveInput enum
member itself, which yields the member text, not its one-character value. -/
def forge_valve_6way_packet (addr : Address) (pos : List Char) : DTInstructionPacket :=
  forge_packet addr [DTCommand.mk (PumpCommand.SelectValveInput.pyStr ++ pos) []] true

/-- PumpProtocol.forge_report_status_packet. -/
def forge_report_status_packet (addr : Address) : DTInstructionPacket :=
  forge_packet addr [mkCmd PumpCommand.ReportStatus []] true

/-! Serial transport from src/pycont/io.py (class SerialIO).

The serial line is modelled as the ordered list of frames the device layer
will hand to readline; the poll loop's timeout corresponds to exhausting
that list.  There is a single global lock, no per-address state. -/

/-- A decoded response as seen by callers: the status character and data
of a DTStatus whose address field was the master address. -/
structure MasterResponse where
  stat : Option Char
  data : Option (List Char)
deriving DecidableEq

/-- SerialIO read response: decode one frame; a DTStatusDecodeError is
caught and the frame dropped (ok none); an IndexError escapes (error);
any frame whose decoded address is not the master address is dropped. -/
def read_response (msg : List ℕ) : Except Unit (Option MasterResponse) :=
  match dtDecode msg with
  | .decodeErr => .ok none
  | .indexErr => .error ()
  | .status a s d =>
    if a = some Address.Master then .ok (some (MasterResponse.mk s d)) else .ok none

/-- Failure modes of one serial exchange. -/
inductive SerialErr where
  | timeout
  | indexErr
deriving DecidableEq

/-- SerialIO get next response: repeatedly read frames, dropping the ones
read response filters out, until a master-addressed response appears;
running out of incoming frames is the poll timeout.  Returns the response
together with the frames still unread. -/
def get_next_response : List (List ℕ) → Except SerialErr (MasterResponse × List (List ℕ))
  | [] => .error .timeout
  | msg :: rest =>
    match read_response msg with
    | .error () => .error .indexErr
    | .ok none => get_next_response rest
    | .ok (some r) => .ok (r, rest)

/-- SerialIO send packet and read response: under the single lock, the
entire pending input buffer is flushed (reset input buffer), the packet is
written, and the next master-addressed response is awaited.  pending is
the buffered input discarded by the flush; arrivals are the frames read
afterwards. -/
def send_packet_and_read_response (_pending arrivals : List (List ℕ))
    (_packet : DTInstructionPacket) : Except SerialErr (MasterResponse × List (List ℕ)) :=
  get_next_response arrivals

/-! Controller from src/pycont/controller/base.py (class PumpController). -/

/-- Static pump parameters: the abstract model constants and the values
held by the controller object. -/
structure PumpSpec where
  number_of_steps : ℕ
  total_volume : ℚ
  max_top_velocity : ℤ
  default_top_velocity : ℤ
deriving DecidableEq

/-- PumpController.steps_per_ml: int(number_of_steps / total_volume).
Both operands are nonnegative so Python int truncation is the floor. -/
def steps_per_ml (cfg : PumpSpec) : ℤ :=
  ⌊(cfg.number_of_steps : ℚ) / cfg.total_volume⌋

/-- PumpController.volume_to_step: int(round(volume_in_ml * steps_per_ml)). -/
def volume_to_step (cfg : PumpSpec) (volume_in_ml : ℚ) : ℤ :=
  roundHalfEven (volume_in_ml * (steps_per_ml cfg : ℚ))

/-- PumpController.step_to_volume: step / float(steps_per_ml). -/
def step_to_volume (cfg : PumpSpec) (step : ℤ) : ℚ :=
  (step : ℚ) / (steps_per_ml cfg : ℚ)

/-- Live device state as observed through report queries, under an ideal
device that completes each accepted actuation command before the next
query (wait until idle is a no-op then). -/
structure PumpState where
  plunger : ℤ
  top_velocity : ℤ
  valve : ValvePosition
deriving DecidableEq

/-- PumpController.current_steps (get_plunger_position). -/
def current_steps (st : PumpState) : ℤ := st.plunger

/-- PumpController.remaining_steps: number_of_steps - current_steps. -/
def remaining_steps (cfg : PumpSpec) (st : PumpState) : ℤ :=
  (cfg.number_of_steps : ℤ) - current_steps st

/-- PumpController.current_volume: step_to_volume of the plunger position. -/
def current_volume (cfg : PumpSpec) (st : PumpState) : ℚ :=
  step_to_volume cfg st.plunger

/-- PumpController.remaining_volume: total_volume - current_volume. -/
def remaining_volume (cfg : PumpSpec) (st : PumpState) : ℚ :=
  cfg.total_volume - current_volume cfg st

/-- PumpController.is_volume_pumpable: steps for the volume fit in the
remaining stroke. -/
def is_volume_pumpable (cfg : PumpSpec) (st : PumpState) (v : ℚ) : Bool :=
  volume_to_step cfg v ≤ remaining_steps cfg st

/-- PumpController.is_volume_deliverable: steps for the volume fit in the
current stroke. -/
def is_volume_deliverable (cfg : PumpSpec) (st : PumpState) (v : ℚ) : Bool :=
  volume_to_step cfg v ≤ current_steps st

/-- Actuation commands sent on the wire by the controller operations
(report queries are omitted from the trace; they do not change state). -/
inductive WireCmd where
  | setTopVelocity (velocity : ℤ)
  | selectValve (pos : ValvePosition)
  | pickup (steps : ℤ)
  | deliverMove (steps : ℤ)
deriving DecidableEq

/-- PumpController.set_top_velocity with secure true under the ideal
device: verify-first, then range-check and send once.  none models the
ValueError from check_top_velocity_within_range. -/
def set_top_velocity (cfg : PumpSpec) (st : PumpState) (v : ℤ) :
    Option (PumpState × List WireCmd) :=
  if st.top_velocity = v then some (st, [])
  else if 1 ≤ v ∧ v ≤ cfg.max_top_velocity then
    some ({st with top_velocity := v}, [WireCmd.setTopVelocity v])
  else none

/-- PumpController.reset_top_velocity: set the default top velocity when
the device reports a different one. -/
def reset_top_velocity (cfg : PumpSpec) (st : PumpState) :
    Option (PumpState × List WireCmd) :=
  if st.top_velocity = cfg.default_top_velocity then some (st, [])
  else set_top_velocity cfg st cfg.default_top_velocity

/-- The command characters set_valve_position forges for each requested
position (PumpController.set_valve_position dispatch combined with the
PumpProtocol forge functions): Extra forges the bypass opcode, and the
6-way positions forge the formatted enum member text. -/
def valve_select_chars (target : ValvePosition) : List Char :=
  match target with
  | .Input => PumpCommand.SelectValveInput.value
  | .Output => PumpCommand.SelectValveOutput.value
  | .Bypass => PumpCommand.SelectValveBypass.value
  | .Extra => PumpCommand.SelectValveBypass.value
  | p => PumpCommand.SelectValveInput.pyStr ++ [p.value]

/-- Which valve position the device actually moves to on receiving a
select command, for the commands the device understands. -/
def device_valve_effect (cmd : List Char) : Option ValvePosition :=
  if cmd = PumpCommand.SelectValveInput.value then some ValvePosition.Input
  else if cmd = PumpCommand.SelectValveOutput.value then some ValvePosition.Output
  else if cmd = PumpCommand.SelectValveBypass.value then some ValvePosition.Bypass
  else none

/-- PumpController.set_valve_position with secure true under the ideal
device: verify-first; otherwise send the forged command.  none models the
operation failing (the verify loop never seeing the requested position and
raising MaxRetriesExceededError, or the device rejecting the command). -/
def set_valve_position (st : PumpState) (target : ValvePosition) :
    Option (PumpState × List WireCmd) :=
  if st.valve = target then some (st, [])
  else
    match device_valve_effect (valve_select_chars target) with
    | some effect =>
      if effect = target then some ({st with valve := target}, [WireCmd.selectValve target])
      else none
    | none => none

/-- PumpController.pump: feasibility check, then velocity and valve
handling, then the pickup move.  Returns the boolean result, the new
device state, and the actuation commands issued. -/
def pump (cfg : PumpSpec) (st : PumpState) (volume_in_ml : ℚ)
    (from_valve : Option ValvePosition) (speed_in : Option ℤ) :
    Option (Bool × PumpState × List WireCmd) :=
  if is_volume_pumpable cfg st volume_in_ml then do
    let velStep ←
      match speed_in with
      | some sp => set_top_velocity cfg st sp
      | none => reset_top_velocity cfg st
    let valveStep ←
      match from_valve with
      | some fv => set_valve_position velStep.1 fv
      | none => some (velStep.1, [])
    let steps := volume_to_step cfg volume_in_ml
    some (true, {valveStep.1 with plunger := valveStep.1.plunger + steps},
      velStep.2 ++ valveStep.2 ++ [WireCmd.pickup steps])
  else
    some (false, st, [])

/-- PumpController.deliver: feasibility check against the current stroke,
zero-volume short circuit, then velocity and valve handling and the
deliver move. -/
def deliver (cfg : PumpSpec) (st : PumpState) (volume_in_ml : ℚ)
    (to_valve : Option ValvePosition) (speed_out : Option ℤ) :
    Option (Bool × PumpState × List WireCmd) :=
  if is_volume_deliverable cfg st volume_in_ml then
    if volume_in_ml = 0 then some (true, st, [])
    else do
      let velStep ←
        match speed_out with
        | some sp => set_top_velocity cfg st sp
        | none => reset_top_velocity cfg st
      let valveStep ←
        match to_valve with
        | some tv => set_valve_position velStep.1 tv
        | none => some (velStep.1, [])
      let steps := volume_to_step cfg volume_in_ml
      some (true, {valveStep.1 with plunger := valveStep.1.plunger - steps},
        velStep.2 ++ valveStep.2 ++ [WireCmd.deliverMove steps])
  else
    some (false, st, [])

/-- One iteration of the PumpController.transfer while loop: transfer
min(outstanding, remaining_volume) by a pump then a deliver stroke, and
subtract it from the outstanding volume.  The returned booleans of pump
and deliver are ignored, as in the source. -/
def transfer_round (cfg : PumpSpec) (from_valve to_valve : ValvePosition)
    (volume_in_ml : ℚ) (st : PumpState) : Option (ℚ × PumpState) :=
  match pump cfg st (min volume_in_ml (remaining_volume cfg st)) (some from_valve) none with
  | none => none
  | some pumpRes =>
    match deliver cfg pumpRes.2.1 (min volume_in_ml (remaining_volume cfg st))
        (some to_valve) none with
    | none => none
    | some deliverRes =>
      some (volume_in_ml - min volume_in_ml (remaining_volume cfg st), deliverRes.2.1)

/-- Result of running the transfer loop with bounded fuel. -/
inductive LoopResult where
  | done (st : PumpState)
  | outOfFuel
  | raised
deriving DecidableEq

/-- PumpController.transfer: while outstanding volume exceeds 1e-3 mL, run
one transfer round.  fuel bounds the number of rounds we unfold; outOfFuel
means the loop was still running after that many rounds. -/
def transferFuel (cfg : PumpSpec) (from_valve to_valve : ValvePosition) :
    ℕ → ℚ → PumpState → LoopResult
  | 0, v, st => if 1/1000 < v then .outOfFuel else .done st
  | fuel + 1, v, st =>
    if 1/1000 < v then
      match transfer_round cfg from_valve to_valve v st with
      | some next => transferFuel cfg from_valve to_valve fuel next.1 next.2
      | none => .raised
    else .done st

/-- MultiPumpController.parallel_transfer specialised to a single pump:
each invocation pumps then delivers min(target, remaining_volume) and
recurses on the positive shortfall.  Returns the recursion depth (number
of rounds) and the final state; none when fuel runs out or a step raises. -/
def parallel_transfer_single (cfg : PumpSpec) (from_valve to_valve : ValvePosition) :
    ℕ → ℚ → PumpState → Option (ℕ × PumpState)
  | 0, _, _ => none
  | fuel + 1, v, st =>
    match pump cfg st (min v (remaining_volume cfg st)) (some from_valve) none with
    | none => none
    | some pumpRes =>
      match deliver cfg pumpRes.2.1 (min v (remaining_volume cfg st)) (some to_valve) none with
      | none => none
      | some deliverRes =>
        if 0 < v - min v (remaining_volume cfg st) then
          match parallel_transfer_single cfg from_valve to_valve fuel
              (v - min v (remaining_volume cfg st)) deliverRes.2.1 with
          | some next => some (next.1 + 1, next.2)
          | none => none
        else some (1, deliverRes.2.1)

/-! Communication retry wrapper and status interpretation. -/

/-- Outcome of one transport send-and-read attempt as seen by the retry
wrapper: a decoded response, a PumpIOTimeOutError, or a
DTStatusDecodeError. -/
inductive AttemptResult where
  | ok (resp : MasterResponse)
  | timeout
  | decodeError
deriving DecidableEq

/-- Outcome of the whole retry wrapper. -/
inductive WriteReadResult where
  | response (resp : MasterResponse)
  | maxRetriesExceeded
deriving DecidableEq

/-- Loop of PumpController.write_and_read_from_pump: the transport is a
function from the attempt index to that attempt's outcome; both timeout
and decode error are absorbed and the next attempt made.  Returns the
result together with the total number of attempts performed. -/
def write_and_read_go (transport : ℕ → AttemptResult) :
    ℕ → ℕ → WriteReadResult × ℕ
  | 0, attempts => (.maxRetriesExceeded, attempts)
  | budget + 1, attempts =>
    match transport attempts with
    | .ok r => (.response r, attempts + 1)
    | .timeout => write_and_read_go transport budget (attempts + 1)
    | .decodeError => write_and_read_go transport budget (attempts + 1)

/-- PumpController.write_and_read_from_pump with a given retry budget. -/
def write_and_read_from_pump (transport : ℕ → AttemptResult) (max_repeat : ℕ) :
    WriteReadResult × ℕ :=
  write_and_read_go transport max_repeat 0

/-- Outcome of PumpController.is_idle. -/
inductive IsIdleResult where
  | idle (b : Bool)
  | valueError
  | hardwareError (code : StatusCode) (pump_name : List Char)
deriving DecidableEq

/-- PumpController.is_idle applied to the status character of the
report-status response: undecodable raises ValueError; an error status
raises PumpHardwareError with the code and pump name; otherwise the
negated busy flag is returned. -/
def is_idle (pump_name : List Char) (status_char : Char) : IsIdleResult :=
  match PumpStatus.tryDecode status_char with
  | none => .valueError
  | some st => if st.isError then .hardwareError st.code pump_name else .idle (!st.busy)

/-! Theorems. -/

/-- The retry loop returns maxRetriesExceeded after consuming exactly its
remaining budget when every attempt in that window fails. -/
theorem write_and_read_go_exhaust (transport : ℕ → AttemptResult) (budget start : ℕ)
    (h : ∀ i, start ≤ i → i < start + budget →
      transport i = AttemptResult.timeout ∨ transport i = AttemptResult.decodeError) :
    write_and_read_go transport budget start = (.maxRetriesExceeded, start + budget) := by
  induction budget generalizing start with
  | zero => simp [write_and_read_go]
  | succ n ih =>
    have hfirst := h start (le_refl start) (by omega)
    have hrest : ∀ i, start + 1 ≤ i → i < (start + 1) + n →
        transport i = AttemptResult.timeout ∨ transport i = AttemptResult.decodeError := by
      intro i h1 h2
      exact h i (by omega) (by omega)
    have htail := ih (start + 1) hrest
    rcases hfirst with h1 | h1 <;>
      simp [write_and_read_go, h1, htail] <;> omega

/-- C4: if the transport raises a timeout or a status-decode error on every
call, then the write-and-read wrapper with retry budget N performs exactly
N send-and-read attempts and then raises MaxRetriesExceededError; decode
errors are absorbed and retried exactly like timeouts, and neither
exception escapes before the budget is exhausted. -/
theorem c4_retry_exhaustion (transport : ℕ → AttemptResult) (N : ℕ) (_hN : 1 ≤ N)
    (hfail : ∀ i, i < N →
      transport i = AttemptResult.timeout ∨ transport i = AttemptResult.decodeError) :
    write_and_read_from_pump transport N = (.maxRetriesExceeded, N) := by
  have h := write_and_read_go_exhaust transport N 0 (by intro i _ h2; exact hfail i (by omega))
  simpa [write_and_read_from_pump] using h

/-- C4 witness: a transport stub that always times out, with budget 3,
performs 3 attempts and raises MaxRetriesExceededError. -/
theorem c4_retry_exhaustion_witness :
    write_and_read_from_pump (fun _ => AttemptResult.timeout) 3 = (.maxRetriesExceeded, 3) :=
  c4_retry_exhaustion (fun _ => AttemptResult.timeout) 3 (by decide)
    (fun _ _ => Or.inl rfl)

/-- C7: the decode table maps the idle character of every canonical status
code to busy=false with that code and the busy character to busy=true;
is_idle raises ValueError on any non-canonical status character, raises
PumpHardwareError carrying the code and pump name on any error status, and
returns the negated busy flag on an Ok status. -/
theorem c7_is_idle_status_decode (pump_name : List Char) (c : Char) :
    (∀ code : StatusCode,
      PumpStatus.tryDecode code.value.1 = some (PumpStatus.mk false code) ∧
      PumpStatus.tryDecode code.value.2 = some (PumpStatus.mk true code)) ∧
    (PumpStatus.tryDecode c = none → is_idle pump_name c = .valueError) ∧
    (∀ st, PumpStatus.tryDecode c = some st → st.code ≠ StatusCode.Ok →
      is_idle pump_name c = .hardwareError st.code pump_name) ∧
    (∀ st, PumpStatus.tryDecode c = some st → st.code = StatusCode.Ok →
      is_idle pump_name c = .idle (!st.busy)) := by
  refine ⟨by decide, ?_, ?_, ?_⟩
  · intro h
    simp [is_idle, h]
  · intro st h hcode
    have hb : st.isError = true := by
      simp [PumpStatus.isError, StatusCode.isError, hcode]
    simp [is_idle, h, hb]
  · intro st h hcode
    have hb : st.isError = false := by
      simp [PumpStatus.isError, StatusCode.isError, hcode]
    simp [is_idle, h, hb]

/-- C7 witness: the character x is outside the table and yields ValueError;
the character a decodes as idle InitFailure and yields PumpHardwareError
with that code; the at-sign decodes as busy Ok and yields idle=false. -/
theorem c7_is_idle_status_decode_witness :
    is_idle [] 'x' = .valueError ∧
    is_idle [] 'a' = .hardwareError StatusCode.InitFailure [] ∧
    is_idle [] '@' = .idle false := by
  refine ⟨(c7_is_idle_status_decode [] 'x').2.1 (by decide), ?_, ?_⟩
  · exact (c7_is_idle_status_decode [] 'a').2.2.1
      (PumpStatus.mk false StatusCode.InitFailure) (by decide) (by decide)
  · exact (c7_is_idle_status_decode [] '@').2.2.2
      (PumpStatus.mk true StatusCode.Ok) (by decide) rfl

/-- C6: for any volume, converting to steps and back differs from the
original volume by at most one step's worth of millilitres. -/
theorem c6_volume_step_roundtrip (cfg : PumpSpec) (v : ℚ)
    (hspml : 0 < steps_per_ml cfg) (h0 : 0 ≤ v) (h1 : v ≤ cfg.total_volume) :
    |step_to_volume cfg (volume_to_step cfg v) - v| ≤ 1 / (steps_per_ml cfg : ℚ) := by
  have hs : (0:ℚ) < (steps_per_ml cfg : ℚ) := by exact_mod_cast hspml
  have hs0 : (steps_per_ml cfg : ℚ) ≠ 0 := ne_of_gt hs
  have hdiff : step_to_volume cfg (volume_to_step cfg v) - v =
      ((volume_to_step cfg v : ℚ) - v * (steps_per_ml cfg : ℚ)) / (steps_per_ml cfg : ℚ) := by
    unfold step_to_volume
    field_simp
    ring
  rw [hdiff, abs_div, abs_of_pos hs]
  have hround : |(volume_to_step cfg v : ℚ) - v * (steps_per_ml cfg : ℚ)| ≤ 1/2 :=
    abs_roundHalfEven_sub_le (v * (steps_per_ml cfg : ℚ))
  calc |(volume_to_step cfg v : ℚ) - v * (steps_per_ml cfg : ℚ)| / (steps_per_ml cfg : ℚ)
      ≤ (1/2) / (steps_per_ml cfg : ℚ) := by gcongr
    _ ≤ 1 / (steps_per_ml cfg : ℚ) := by gcongr <;> norm_num

/-- An example pump with steps_per_ml 1000 on a 5 mL syringe
(number_of_steps 5000), default top velocity 6000. -/
def cfg5 : PumpSpec := PumpSpec.mk 5000 5 6000 6000

theorem cfg5_spml : steps_per_ml cfg5 = 1000 := by
  unfold steps_per_ml cfg5
  norm_num

/-- C6 witness: the round trip bound instantiated on the 5 mL pump at
volume 3/2 mL. -/
theorem c6_volume_step_roundtrip_witness :
    0 < steps_per_ml cfg5 ∧ (0:ℚ) ≤ 3/2 ∧ (3/2 : ℚ) ≤ cfg5.total_volume ∧
    |step_to_volume cfg5 (volume_to_step cfg5 (3/2)) - 3/2| ≤ 1 / (steps_per_ml cfg5 : ℚ) := by
  have h1 : 0 < steps_per_ml cfg5 := by rw [cfg5_spml]; norm_num
  have h2 : (0:ℚ) ≤ 3/2 := by norm_num
  have h3 : (3/2 : ℚ) ≤ cfg5.total_volume := by norm_num [cfg5]
  exact ⟨h1, h2, h3, c6_volume_step_roundtrip cfg5 (3/2) h1 h2 h3⟩

/-- C3: evaluation of the forged valve packets at bus address Switch0.
The packet forged for the Extra position is byte-for-byte identical to the
packet forged for the Bypass position (the source forges the bypass
command for both), and the packet forged for 6-way position 1 carries the
formatted enum member text rather than the select-valve-input opcode
character followed by the digit. -/
theorem c3_valve_packet_eval :
    forge_valve_extra_packet Address.Switch0 = forge_valve_bypass_packet Address.Switch0 ∧
    (forge_valve_6way_packet Address.Switch0 [ValvePosition.One.value]).toBytes =
      utf8Encode (strChars ("/1PumpCommand.SelectValveInput1R\r")) ∧
    (forge_valve_6way_packet Address.Switch0 [ValvePosition.One.value]).toBytes ≠
      utf8Encode (strChars ("/1I1R\r")) ∧
    (forge_valve_input_packet Address.Switch0).toBytes = utf8Encode (strChars ("/1IR\r")) ∧
    (forge_valve_output_packet Address.Switch0).toBytes = utf8Encode (strChars ("/1OR\r")) ∧
    (forge_valve_bypass_packet Address.Switch0).toBytes = utf8Encode (strChars ("/1BR\r")) := by
  refine ⟨rfl, by decide, by decide, by decide, by decide, by decide⟩

/-! Concrete serial frames for the C1 exchange scenario. -/

/-- A response frame declaring bus address Switch0 (wire character 1). -/
def frameForB : List ℕ := utf8Encode (strChars ("/1gX\r"))

/-- A response frame declaring the master address, with an idle Ok status
character and empty data. -/
def frameForMaster : List ℕ := utf8Encode ('/' :: '0' :: Char.ofNat 96 :: ['\r'])

/-- The packet of the exchange under way, addressed to Switch1. -/
def packetForA : DTInstructionPacket := forge_report_status_packet Address.Switch1

/-- C1 counterexample: during an exchange for address A, a response frame
declaring address B is consumed and discarded, not queued: the exchange
skips it, returns the master-addressed frame, and leaves no unread frames
and no per-address queue behind; read_response classifies the B frame as
dropped. -/
theorem c1_counterexample :
    send_packet_and_read_response [] [frameForB, frameForMaster] packetForA =
      Except.ok (MasterResponse.mk (some (Char.ofNat 96)) (some []), []) ∧
    read_response frameForB = Except.ok none := by
  exact ⟨rfl, rfl⟩

/-- C1 amended: the serial transport matches a response only by its
declared address being the master address; any frame declaring another
address is discarded by read_response and the exchange proceeds as if it
had never arrived, and the pending input buffer is entirely flushed (the
exchange outcome is independent of it). -/
theorem c1_amended (pending arrivals : List (List ℕ)) (msg : List ℕ)
    (packet : DTInstructionPacket) (a : Option Address) (s : Option Char)
    (d : Option (List Char)) (hmsg : dtDecode msg = .status a s d)
    (hne : a ≠ some Address.Master) :
    read_response msg = Except.ok none ∧
    send_packet_and_read_response pending (msg :: arrivals) packet =
      send_packet_and_read_response pending arrivals packet ∧
    send_packet_and_read_response pending arrivals packet =
      send_packet_and_read_response [] arrivals packet := by
  have hdrop : read_response msg = Except.ok none := by
    unfold read_response
    rw [hmsg]
    simp [hne]
  refine ⟨hdrop, ?_, rfl⟩
  show get_next_response (msg :: arrivals) = get_next_response arrivals
  simp only [get_next_response, hdrop]

/-- C1 amended witness: instantiated on the concrete frame for address B
during the exchange for address A. -/
theorem c1_amended_witness :
    read_response frameForB = Except.ok none ∧
    send_packet_and_read_response [] (frameForB :: [frameForMaster]) packetForA =
      send_packet_and_read_response [] [frameForMaster] packetForA ∧
    send_packet_and_read_response [] [frameForMaster] packetForA =
      send_packet_and_read_response [] [frameForMaster] packetForA :=
  c1_amended [] [frameForMaster] frameForB packetForA
    (some Address.Switch0) none none (by decide) (by decide)

/-- C8 counterexample: the truncated frames consisting of just the start
delimiter and the start delimiter plus the master address character raise
an uncaught IndexError rather than the decode error, and a frame whose
first character is a non-master address yields a partially populated
status object (address set, status and data none). -/
theorem c8_counterexample :
    dtDecode (utf8Encode (strChars ("/0"))) = .indexErr ∧
    dtDecode (utf8Encode (strChars ("/"))) = .indexErr ∧
    dtDecode (utf8Encode (strChars ("/5abc"))) = .status (some Address.Switch4) none none := by
  exact ⟨by decide, by decide, by decide⟩

/-- The classification every decode result satisfies: when a status object
is produced, its status and data fields are populated exactly when the
decoded address is the master address. -/
def dtResultInvariant : DTDecodeResult → Prop
  | .status a s d =>
    (a = some Address.Master → s.isSome ∧ d.isSome) ∧
    (a ≠ some Address.Master → s = none ∧ d = none)
  | _ => True

/-- C8 amended: decoding any byte string yields the decode error exactly
on invalid UTF-8, or an uncaught IndexError (empty stripped text, or a
master frame with no status character), or a status object that is fully
populated when its address is the master address and has status and data
none otherwise; a missing start delimiter is tolerated rather than
rejected. -/
theorem c8_amended (bytes : List ℕ) :
    dtResultInvariant (dtDecode bytes) ∧
    (dtDecode bytes = .decodeErr ↔ utf8Decode? bytes = none) ∧
    dtDecode (utf8Encode (strChars ("0abc"))) =
      .status (some Address.Master) (some 'a') (some (strChars ("bc"))) := by
  have hextract : ∀ chars, dtResultInvariant (dtExtract chars) ∧ dtExtract chars ≠ .decodeErr := by
    intro chars
    unfold dtExtract
    rcases h : pyStripResponse chars with _ | ⟨c0, rest⟩
    · exact ⟨trivial, by simp⟩
    · rcases ha : Address.ofChar? c0 with _ | a
      · simp only [ha]
        refine ⟨⟨?_, fun _ => ⟨rfl, rfl⟩⟩, by simp⟩
        intro hc
        cases hc
      · simp only [ha]
        by_cases hm : a = Address.Master
        · subst hm
          rw [if_pos rfl]
          rcases rest with _ | ⟨s1, dataRest⟩
          · exact ⟨trivial, by simp⟩
          · refine ⟨⟨fun _ => ⟨rfl, rfl⟩, fun hc => absurd rfl hc⟩, by simp⟩
        · rw [if_neg hm]
          refine ⟨⟨?_, fun _ => ⟨rfl, rfl⟩⟩, by simp⟩
          intro hc
          exact absurd (Option.some_injective _ hc) hm
  constructor
  · unfold dtDecode
    rcases h : utf8Decode? bytes with _ | chars
    · trivial
    · exact (hextract chars).1
  constructor
  · unfold dtDecode
    rcases h : utf8Decode? bytes with _ | chars
    · simp
    · simp only [h]
      constructor
      · intro hc
        exact absurd hc (hextract chars).2
      · intro hc
        exact absurd hc (by simp)
  · decide

/-- C8 amended witness: the classification instantiated on the truncated
master frame. -/
theorem c8_amended_witness :
    dtResultInvariant (dtDecode (utf8Encode (strChars ("/0")))) ∧
    (dtDecode (utf8Encode (strChars ("/0"))) = .decodeErr ↔
      utf8Decode? (utf8Encode (strChars ("/0"))) = none) ∧
    dtDecode (utf8Encode (strChars ("0abc"))) =
      .status (some Address.Master) (some 'a') (some (strChars ("bc"))) :=
  c8_amended (utf8Encode (strChars ("/0")))

/-- A pump with number_of_steps 3000 configured with a 7 mL syringe: the
integer floor in steps_per_ml makes the conversions overshoot. -/
def cfg7 : PumpSpec := PumpSpec.mk 3000 7 6000 6000

theorem cfg7_spml : steps_per_ml cfg7 = 428 := by
  unfold steps_per_ml cfg7
  norm_num

/-- C9 counterexample: on the 3000-step, 7 mL pump, the volume derived
from the full plunger position exceeds total_volume, and remaining_volume
is negative there, so reported volumes are not clamped to the interval
from 0 to total_volume. -/
theorem c9_counterexample :
    cfg7.total_volume < step_to_volume cfg7 (cfg7.number_of_steps : ℤ) ∧
    remaining_volume cfg7 (PumpState.mk 3000 6000 ValvePosition.Input) < 0 := by
  constructor
  · unfold step_to_volume
    rw [cfg7_spml]
    norm_num [cfg7]
  · unfold remaining_volume current_volume step_to_volume
    rw [cfg7_spml]
    norm_num [cfg7]

/-- C9 amended: for plunger positions between 0 and number_of_steps the
derived volume lies between 0 and number_of_steps divided by steps_per_ml,
an interval that contains total_volume but whose upper end exceeds it
whenever the integer floor in steps_per_ml discarded a fractional part;
the derived volume is clamped to total_volume, and remaining_volume is
nonnegative, exactly under the side condition that number_of_steps equals
steps_per_ml times total_volume. -/
theorem c9_amended (cfg : PumpSpec) (s t : ℤ) (vp : ValvePosition)
    (hV : 0 < cfg.total_volume) (hspml : 0 < steps_per_ml cfg)
    (h0 : 0 ≤ s) (h1 : s ≤ (cfg.number_of_steps : ℤ)) :
    0 ≤ step_to_volume cfg s ∧
    step_to_volume cfg s ≤ (cfg.number_of_steps : ℚ) / (steps_per_ml cfg : ℚ) ∧
    cfg.total_volume ≤ (cfg.number_of_steps : ℚ) / (steps_per_ml cfg : ℚ) ∧
    ((cfg.number_of_steps : ℚ) = (steps_per_ml cfg : ℚ) * cfg.total_volume →
      step_to_volume cfg s ≤ cfg.total_volume ∧
      0 ≤ remaining_volume cfg (PumpState.mk s t vp)) := by
  have hsQ : (0:ℚ) < (steps_per_ml cfg : ℚ) := by exact_mod_cast hspml
  have h0Q : (0:ℚ) ≤ (s : ℚ) := by exact_mod_cast h0
  have h1Q : (s : ℚ) ≤ (cfg.number_of_steps : ℚ) := by exact_mod_cast h1
  have hbound2 : step_to_volume cfg s ≤ (cfg.number_of_steps : ℚ) / (steps_per_ml cfg : ℚ) := by
    unfold step_to_volume
    gcongr
  have hfloor : (steps_per_ml cfg : ℚ) ≤ (cfg.number_of_steps : ℚ) / cfg.total_volume := by
    unfold steps_per_ml
    exact_mod_cast Int.floor_le ((cfg.number_of_steps : ℚ) / cfg.total_volume)
  have hmul : (steps_per_ml cfg : ℚ) * cfg.total_volume ≤ (cfg.number_of_steps : ℚ) := by
    have := mul_le_mul_of_nonneg_right hfloor (le_of_lt hV)
    calc (steps_per_ml cfg : ℚ) * cfg.total_volume
        ≤ ((cfg.number_of_steps : ℚ) / cfg.total_volume) * cfg.total_volume := this
      _ = (cfg.number_of_steps : ℚ) := by field_simp
  have hbound3 : cfg.total_volume ≤ (cfg.number_of_steps : ℚ) / (steps_per_ml cfg : ℚ) := by
    rw [le_div_iff hsQ]
    calc cfg.total_volume * (steps_per_ml cfg : ℚ)
        = (steps_per_ml cfg : ℚ) * cfg.total_volume := by ring
      _ ≤ (cfg.number_of_steps : ℚ) := hmul
  refine ⟨?_, hbound2, hbound3, ?_⟩
  · unfold step_to_volume
    exact div_nonneg h0Q (le_of_lt hsQ)
  · intro hexact
    have hVdiv : (cfg.number_of_steps : ℚ) / (steps_per_ml cfg : ℚ) = cfg.total_volume := by
      rw [hexact]
      field_simp
    have hclamp : step_to_volume cfg s ≤ cfg.total_volume := by
      rw [← hVdiv]
      exact hbound2
    refine ⟨hclamp, ?_⟩
    unfold remaining_volume current_volume
    have : step_to_volume cfg s ≤ cfg.total_volume := hclamp
    simp only [PumpState.mk.injEq]
    linarith [hclamp]

/-- C9 amended witness: instantiated on the 5 mL pump (exact division) at
plunger position 2500. -/
theorem c9_amended_witness :
    0 ≤ step_to_volume cfg5 2500 ∧
    step_to_volume cfg5 2500 ≤ (cfg5.number_of_steps : ℚ) / (steps_per_ml cfg5 : ℚ) ∧
    cfg5.total_volume ≤ (cfg5.number_of_steps : ℚ) / (steps_per_ml cfg5 : ℚ) ∧
    ((cfg5.number_of_steps : ℚ) = (steps_per_ml cfg5 : ℚ) * cfg5.total_volume →
      step_to_volume cfg5 2500 ≤ cfg5.total_volume ∧
      0 ≤ remaining_volume cfg5 (PumpState.mk 2500 6000 ValvePosition.Input)) :=
  c9_amended cfg5 2500 6000 ValvePosition.Input (by norm_num [cfg5])
    (by rw [cfg5_spml]; norm_num) (by norm_num) (by norm_num [cfg5])

/-- C5: pump returns false and issues no actuation command at all when the
rounded step count exceeds the remaining stroke, and otherwise (with no
valve or speed argument and the device already at the default velocity)
issues exactly one pickup command for that step count and returns true;
deliver is symmetric with the current stroke as the feasibility bound. -/
theorem c5_pump_feasibility (cfg : PumpSpec) (st : PumpState) (v : ℚ)
    (hvel : st.top_velocity = cfg.default_top_velocity) :
    (is_volume_pumpable cfg st v = false → pump cfg st v none none = some (false, st, [])) ∧
    (is_volume_pumpable cfg st v = true →
      pump cfg st v none none =
        some (true, { st with plunger := st.plunger + volume_to_step cfg v },
          [WireCmd.pickup (volume_to_step cfg v)])) ∧
    (is_volume_pumpable cfg st v = true ↔ volume_to_step cfg v ≤ remaining_steps cfg st) ∧
    (is_volume_deliverable cfg st v = false → deliver cfg st v none none = some (false, st, [])) ∧
    (is_volume_deliverable cfg st v = true → v ≠ 0 →
      deliver cfg st v none none =
        some (true, { st with plunger := st.plunger - volume_to_step cfg v },
          [WireCmd.deliverMove (volume_to_step cfg v)])) ∧
    (is_volume_deliverable cfg st v = true ↔ volume_to_step cfg v ≤ current_steps st) := by
  refine ⟨?_, ?_, ?_, ?_, ?_, ?_⟩
  · intro h
    simp [pump, h]
  · intro h
    simp [pump, h, reset_top_velocity, hvel]
  · simp [is_volume_pumpable]
  · intro h
    simp [deliver, h]
  · intro h hv0
    simp [deliver, h, hv0, reset_top_velocity, hvel]
  · simp [is_volume_deliverable]

/-- The 5 mL pump at plunger position 0, default velocity, input valve. -/
def st0 : PumpState := PumpState.mk 0 6000 ValvePosition.Input

theorem cfg5_vts6 : volume_to_step cfg5 6 = 6000 := by
  unfold volume_to_step
  rw [cfg5_spml]
  have h : (6:ℚ) * ((1000:ℤ):ℚ) = ((6000:ℤ):ℚ) := by norm_num
  rw [h, roundHalfEven_intCast]

theorem cfg5_vts5 : volume_to_step cfg5 5 = 5000 := by
  unfold volume_to_step
  rw [cfg5_spml]
  have h : (5:ℚ) * ((1000:ℤ):ℚ) = ((5000:ℤ):ℚ) := by norm_num
  rw [h, roundHalfEven_intCast]

/-- C5 witness: on the 5 mL, 1000 steps-per-mL pump at position 0,
pump of 6 mL returns false with no command issued, and pump of 5 mL
returns true issuing one pickup command for 5000 steps. -/
theorem c5_pump_feasibility_witness :
    pump cfg5 st0 6 none none = some (false, st0, []) ∧
    pump cfg5 st0 5 none none =
      some (true, PumpState.mk 5000 6000 ValvePosition.Input, [WireCmd.pickup 5000]) := by
  have hfeas6 : is_volume_pumpable cfg5 st0 6 = false := by
    unfold is_volume_pumpable
    rw [cfg5_vts6]
    decide
  have hfeas5 : is_volume_pumpable cfg5 st0 5 = true := by
    unfold is_volume_pumpable
    rw [cfg5_vts5]
    decide
  constructor
  · exact (c5_pump_feasibility cfg5 st0 6 rfl).1 hfeas6
  · have h2 := (c5_pump_feasibility cfg5 st0 5 rfl).2.1 hfeas5
    rw [cfg5_vts5] at h2
    simpa [st0] using h2

/-! State-transition lemmas for the transfer loops. -/

/-- Under the ideal device, set_valve_position on a position whose forged
command actually selects that position moves the valve there, issuing one
command when the valve was elsewhere and none when it already matched. -/
theorem set_valve_position_ideal (stx : PumpState) (tv : ValvePosition)
    (heff : device_valve_effect (valve_select_chars tv) = some tv) :
    set_valve_position stx tv =
      some ({ stx with valve := tv },
        if stx.valve = tv then [] else [WireCmd.selectValve tv]) := by
  unfold set_valve_position
  by_cases hx : stx.valve = tv
  · rw [if_pos hx, if_pos hx, ← hx]
  · rw [if_neg hx, heff]
    simp [hx]

/-- Evaluation of pump on a feasible volume with a well-behaved source
valve, no explicit speed, and the device already at the default velocity. -/
theorem pump_eval (cfg : PumpSpec) (st : PumpState) (v : ℚ) (fromV : ValvePosition)
    (hfeas : is_volume_pumpable cfg st v = true)
    (hvel : st.top_velocity = cfg.default_top_velocity)
    (heff : device_valve_effect (valve_select_chars fromV) = some fromV) :
    pump cfg st v (some fromV) none =
      some (true,
        PumpState.mk (st.plunger + volume_to_step cfg v) cfg.default_top_velocity fromV,
        (if st.valve = fromV then [] else [WireCmd.selectValve fromV]) ++
          [WireCmd.pickup (volume_to_step cfg v)]) := by
  obtain ⟨p, tv, vl⟩ := st
  simp only at hvel
  subst hvel
  simp [pump, hfeas, reset_top_velocity, set_valve_position_ideal _ _ heff]

/-- Evaluation of deliver on a feasible nonzero volume with a well-behaved
target valve, no explicit speed, and the default velocity already set. -/
theorem deliver_eval (cfg : PumpSpec) (st : PumpState) (v : ℚ) (toV : ValvePosition)
    (hfeas : is_volume_deliverable cfg st v = true) (hv0 : v ≠ 0)
    (hvel : st.top_velocity = cfg.default_top_velocity)
    (heff : device_valve_effect (valve_select_chars toV) = some toV) :
    deliver cfg st v (some toV) none =
      some (true,
        PumpState.mk (st.plunger - volume_to_step cfg v) cfg.default_top_velocity toV,
        (if st.valve = toV then [] else [WireCmd.selectValve toV]) ++
          [WireCmd.deliverMove (volume_to_step cfg v)]) := by
  obtain ⟨p, tv, vl⟩ := st
  simp only at hvel
  subst hvel
  simp [deliver, hfeas, hv0, reset_top_velocity, set_valve_position_ideal _ _ heff]

/-- volume_to_step of the zero volume is zero steps. -/
theorem volume_to_step_zero (cfg : PumpSpec) : volume_to_step cfg 0 = 0 := by
  unfold volume_to_step
  rw [zero_mul, roundHalfEven_zero]

/-- A transfer round at zero remaining volume (plunger at the top of the
stroke) moves nothing and leaves both the outstanding volume and the
device state unchanged. -/
theorem transfer_round_fixed (cfg : PumpSpec) (fromV toV : ValvePosition)
    (v : ℚ) (st : PumpState) (hv0 : 0 ≤ v)
    (hplunger : st.plunger = (cfg.number_of_steps : ℤ))
    (hrem : remaining_volume cfg st = 0)
    (hvel : st.top_velocity = cfg.default_top_velocity)
    (hvalve : st.valve = fromV) :
    transfer_round cfg fromV toV v st = some (v, st) := by
  have hpumpable : is_volume_pumpable cfg st 0 = true := by
    unfold is_volume_pumpable
    rw [volume_to_step_zero]
    unfold remaining_steps current_steps
    rw [hplunger]
    simp
  have hdeliverable : is_volume_deliverable cfg st 0 = true := by
    unfold is_volume_deliverable
    rw [volume_to_step_zero]
    unfold current_steps
    rw [hplunger]
    simp
  have hpump0 : pump cfg st 0 (some fromV) none = some (true, st, [WireCmd.pickup 0]) := by
    obtain ⟨p, tv, vl⟩ := st
    simp only at hvel hvalve
    subst hvel
    subst hvalve
    simp [pump, hpumpable, reset_top_velocity, set_valve_position, volume_to_step_zero]
  have hdeliver0 : deliver cfg st 0 (some toV) none = some (true, st, []) := by
    simp [deliver, hdeliverable]
  unfold transfer_round
  rw [hrem, min_eq_right hv0]
  simp [hpump0, hdeliver0]

/-- The floored steps_per_ml times the total volume never exceeds the step
count. -/
theorem spml_mul_total_le (cfg : PumpSpec) (hV : 0 < cfg.total_volume) :
    (steps_per_ml cfg : ℚ) * cfg.total_volume ≤ (cfg.number_of_steps : ℚ) := by
  have hfloor : (steps_per_ml cfg : ℚ) ≤ (cfg.number_of_steps : ℚ) / cfg.total_volume := by
    unfold steps_per_ml
    exact_mod_cast Int.floor_le ((cfg.number_of_steps : ℚ) / cfg.total_volume)
  calc (steps_per_ml cfg : ℚ) * cfg.total_volume
      ≤ ((cfg.number_of_steps : ℚ) / cfg.total_volume) * cfg.total_volume :=
        mul_le_mul_of_nonneg_right hfloor (le_of_lt hV)
    _ = (cfg.number_of_steps : ℚ) := by field_simp

/-- A transfer round with positive outstanding and remaining volume moves
min(outstanding, remaining) through a full pump-then-deliver stroke: the
plunger returns to its starting position, the velocity is the default, the
valve ends at the target, and the outstanding volume drops by the amount
moved. -/
theorem transfer_round_pos (cfg : PumpSpec) (fromV toV : ValvePosition)
    (v : ℚ) (st : PumpState)
    (hfrom : device_valve_effect (valve_select_chars fromV) = some fromV)
    (hto : device_valve_effect (valve_select_chars toV) = some toV)
    (hspml : 0 < steps_per_ml cfg) (hV : 0 < cfg.total_volume)
    (hp0 : 0 ≤ st.plunger)
    (hvel : st.top_velocity = cfg.default_top_velocity)
    (hvpos : 0 < v) (hR : 0 < remaining_volume cfg st) :
    transfer_round cfg fromV toV v st =
      some (v - min v (remaining_volume cfg st),
        PumpState.mk st.plunger cfg.default_top_velocity toV) := by
  have hsQ : (0:ℚ) < (steps_per_ml cfg : ℚ) := by exact_mod_cast hspml
  have hvt0 : 0 < min v (remaining_volume cfg st) := lt_min hvpos hR
  have hvtR : min v (remaining_volume cfg st) ≤ remaining_volume cfg st := min_le_right _ _
  have hmulV := spml_mul_total_le cfg hV
  have hstep_le : min v (remaining_volume cfg st) * (steps_per_ml cfg : ℚ) ≤
      (((cfg.number_of_steps : ℤ) - st.plunger : ℤ) : ℚ) := by
    have hrem_eq : remaining_volume cfg st =
        cfg.total_volume - (st.plunger : ℚ) / (steps_per_ml cfg : ℚ) := rfl
    have h1 : min v (remaining_volume cfg st) * (steps_per_ml cfg : ℚ) ≤
        (cfg.total_volume - (st.plunger : ℚ) / (steps_per_ml cfg : ℚ)) * (steps_per_ml cfg : ℚ) := by
      rw [← hrem_eq]
      exact mul_le_mul_of_nonneg_right hvtR (le_of_lt hsQ)
    have h2 : (cfg.total_volume - (st.plunger : ℚ) / (steps_per_ml cfg : ℚ)) *
        (steps_per_ml cfg : ℚ) = cfg.total_volume * (steps_per_ml cfg : ℚ) - (st.plunger : ℚ) := by
      field_simp
    push_cast
    rw [h2] at h1
    nlinarith [hmulV]
  have hsteps_nonneg : 0 ≤ volume_to_step cfg (min v (remaining_volume cfg st)) := by
    unfold volume_to_step
    exact roundHalfEven_nonneg _ (mul_nonneg (le_of_lt hvt0) (le_of_lt hsQ))
  have hfeas : is_volume_pumpable cfg st (min v (remaining_volume cfg st)) = true := by
    unfold is_volume_pumpable
    rw [decide_eq_true_eq]
    unfold volume_to_step remaining_steps current_steps
    exact roundHalfEven_le_of_le_int _ _ (by exact_mod_cast hstep_le)
  have hpump := pump_eval cfg st (min v (remaining_volume cfg st)) fromV hfeas hvel hfrom
  have hfeasD : is_volume_deliverable cfg
      (PumpState.mk (st.plunger + volume_to_step cfg (min v (remaining_volume cfg st)))
        cfg.default_top_velocity fromV) (min v (remaining_volume cfg st)) = true := by
    unfold is_volume_deliverable
    rw [decide_eq_true_eq]
    unfold current_steps
    simp only
    omega
  have hdeliver := deliver_eval cfg
    (PumpState.mk (st.plunger + volume_to_step cfg (min v (remaining_volume cfg st)))
      cfg.default_top_velocity fromV)
    (min v (remaining_volume cfg st)) toV hfeasD (ne_of_gt hvt0) rfl hto
  unfold transfer_round
  simp [hpump, hdeliver]

/-- A pump with steps_per_ml 1000 on a 3 mL syringe (number_of_steps
3000): total_volume divides the step count exactly. -/
def cfg3 : PumpSpec := PumpSpec.mk 3000 3 6000 6000

theorem cfg3_spml : steps_per_ml cfg3 = 1000 := by
  unfold steps_per_ml cfg3
  norm_num

theorem cfg3_rem_top :
    remaining_volume cfg3 (PumpState.mk 3000 6000 ValvePosition.Input) = 0 := by
  unfold remaining_volume current_volume step_to_volume
  rw [cfg3_spml]
  norm_num [cfg3]

/-- C10: when remaining_volume is zero at the start of a round (plunger at
number_of_steps) and more than 1e-3 mL is still outstanding, each transfer
round moves nothing and the while loop of PumpController.transfer never
terminates: for every bound on the number of rounds, the loop is still
running. -/
theorem c10_transfer_nontermination (cfg : PumpSpec) (fromV toV : ValvePosition)
    (v : ℚ) (st : PumpState)
    (hv : 1/1000 < v)
    (hplunger : st.plunger = (cfg.number_of_steps : ℤ))
    (hrem : remaining_volume cfg st = 0)
    (hvel : st.top_velocity = cfg.default_top_velocity)
    (hvalve : st.valve = fromV) :
    ∀ fuel, transferFuel cfg fromV toV fuel v st = .outOfFuel := by
  have hv0 : 0 ≤ v := le_of_lt (lt_trans (by norm_num) hv)
  have hround := transfer_round_fixed cfg fromV toV v st hv0 hplunger hrem hvel hvalve
  intro fuel
  induction fuel with
  | zero =>
    simp only [transferFuel]
    rw [if_pos hv]
  | succ n ih =>
    simp only [transferFuel]
    rw [if_pos hv, hround]
    exact ih

/-- C10 witness: the 3 mL pump with the plunger at the top of the stroke
and 1 mL still outstanding is still looping after 5 rounds. -/
theorem c10_transfer_nontermination_witness :
    (1:ℚ)/1000 < 1 ∧
    transferFuel cfg3 ValvePosition.Input ValvePosition.Output 5 1
      (PumpState.mk 3000 6000 ValvePosition.Input) = .outOfFuel :=
  ⟨by norm_num,
    c10_transfer_nontermination cfg3 ValvePosition.Input ValvePosition.Output 1
      (PumpState.mk 3000 6000 ValvePosition.Input)
      (by norm_num) rfl cfg3_rem_top rfl rfl 5⟩

/-- C2 counterexample: a transfer round of PumpController.transfer run on
the 3 mL pump with zero remaining volume and 1 mL outstanding leaves the
outstanding volume unchanged at 1 mL, so the outstanding volume does not
strictly decrease each round. -/
theorem c2_counterexample :
    transfer_round cfg3 ValvePosition.Input ValvePosition.Output 1
      (PumpState.mk 3000 6000 ValvePosition.Input) =
      some (1, PumpState.mk 3000 6000 ValvePosition.Input) :=
  transfer_round_fixed cfg3 ValvePosition.Input ValvePosition.Output 1
    (PumpState.mk 3000 6000 ValvePosition.Input)
    (by norm_num) rfl cfg3_rem_top rfl rfl

/-- The transfer loop terminates within n rounds whenever the requested
volume is at most n times the remaining volume plus the loop threshold,
provided the remaining volume is positive. -/
theorem transfer_terminates (cfg : PumpSpec) (fromV toV : ValvePosition)
    (hfrom : device_valve_effect (valve_select_chars fromV) = some fromV)
    (hto : device_valve_effect (valve_select_chars toV) = some toV)
    (hspml : 0 < steps_per_ml cfg) (hV : 0 < cfg.total_volume) :
    ∀ (n : ℕ) (v : ℚ) (st : PumpState), 0 ≤ st.plunger →
      st.top_velocity = cfg.default_top_velocity →
      0 < remaining_volume cfg st → 0 ≤ v →
      v ≤ n * remaining_volume cfg st + 1/1000 →
      ∃ stF, transferFuel cfg fromV toV n v st = .done stF := by
  intro n
  induction n with
  | zero =>
    intro v st hp0 hvel hR hv0 hn
    have hstop : ¬ (1/1000 < v) := by
      push_neg
      push_cast at hn
      linarith
    refine ⟨st, ?_⟩
    simp only [transferFuel]
    rw [if_neg hstop]
  | succ m ih =>
    intro v st hp0 hvel hR hv0 hn
    by_cases hgo : 1/1000 < v
    · have hvpos : 0 < v := lt_trans (by norm_num) hgo
      have hround := transfer_round_pos cfg fromV toV v st hfrom hto hspml hV hp0 hvel hvpos hR
      have hR' : remaining_volume cfg
          (PumpState.mk st.plunger cfg.default_top_velocity toV) =
          remaining_volume cfg st := rfl
      have hv0' : 0 ≤ v - min v (remaining_volume cfg st) := by
        have := min_le_left v (remaining_volume cfg st)
        linarith
      have hn' : v - min v (remaining_volume cfg st) ≤
          m * remaining_volume cfg st + 1/1000 := by
        rcases le_total v (remaining_volume cfg st) with hle | hle
        · rw [min_eq_left hle]
          have hmR : (0:ℚ) ≤ (m : ℚ) * remaining_volume cfg st := by positivity
          linarith
        · rw [min_eq_right hle]
          push_cast at hn ⊢
          linarith
      obtain ⟨stF, hF⟩ := ih (v - min v (remaining_volume cfg st))
        (PumpState.mk st.plunger cfg.default_top_velocity toV)
        hp0 rfl (by rw [hR']; exact hR) hv0' (by rw [hR']; exact hn')
      refine ⟨stF, ?_⟩
      simp only [transferFuel]
      rw [if_pos hgo, hround]
      exact hF
    · refine ⟨st, ?_⟩
      simp only [transferFuel]
      rw [if_neg hgo]

/-- Unfolding of one parallel_transfer round through the shared
pump-then-deliver round. -/
theorem parallel_transfer_single_succ (cfg : PumpSpec) (fromV toV : ValvePosition)
    (fuel : ℕ) (v : ℚ) (st : PumpState) :
    parallel_transfer_single cfg fromV toV (fuel + 1) v st =
      match transfer_round cfg fromV toV v st with
      | none => none
      | some res =>
        if 0 < res.1 then
          match parallel_transfer_single cfg fromV toV fuel res.1 res.2 with
          | some next => some (next.1 + 1, next.2)
          | none => none
        else some (1, res.2) := by
  conv_lhs => rw [parallel_transfer_single]
  unfold transfer_round
  rcases hp : pump cfg st (min v (remaining_volume cfg st)) (some fromV) none with _ | pr
  · rfl
  · dsimp only
    rcases hd : deliver cfg pr.2.1 (min v (remaining_volume cfg st)) (some toV) none with _ | dr
    · rfl
    · rfl

/-- A pump with steps_per_ml 1000 on a 1 mL syringe (number_of_steps
1000). -/
def cfg1 : PumpSpec := PumpSpec.mk 1000 1 6000 6000

theorem cfg1_spml : steps_per_ml cfg1 = 1000 := by
  unfold steps_per_ml cfg1
  norm_num

theorem cfg1_rem (vl : ValvePosition) :
    remaining_volume cfg1 (PumpState.mk 0 6000 vl) = 1 := by
  unfold remaining_volume current_volume step_to_volume
  rw [cfg1_spml]
  norm_num [cfg1]

theorem cfg1_round (v : ℚ) (vl : ValvePosition) (hv : 0 < v) :
    transfer_round cfg1 ValvePosition.Input ValvePosition.Output v
      (PumpState.mk 0 6000 vl) =
      some (v - min v 1, PumpState.mk 0 6000 ValvePosition.Output) := by
  have h := transfer_round_pos cfg1 ValvePosition.Input ValvePosition.Output v
    (PumpState.mk 0 6000 vl) (by decide) (by decide)
    (by rw [cfg1_spml]; norm_num) (by norm_num [cfg1]) (by norm_num) rfl hv
    (by rw [cfg1_rem]; norm_num)
  rw [cfg1_rem] at h
  exact h

/-- Evaluation of the single-pump parallel_transfer on the 1 mL pump asked
for 2.5 mL: exactly three rounds of recursion. -/
theorem parallel_cfg1_eval :
    parallel_transfer_single cfg1 ValvePosition.Input ValvePosition.Output 5 (5/2)
      (PumpState.mk 0 6000 ValvePosition.Input) =
      some (3, PumpState.mk 0 6000 ValvePosition.Output) := by
  have e3 : parallel_transfer_single cfg1 ValvePosition.Input ValvePosition.Output 3 (1/2)
      (PumpState.mk 0 6000 ValvePosition.Output) =
      some (1, PumpState.mk 0 6000 ValvePosition.Output) := by
    rw [parallel_transfer_single_succ, cfg1_round (1/2) _ (by norm_num)]
    have hm : (1/2:ℚ) - min (1/2:ℚ) 1 = 0 := by
      rw [min_eq_left (by norm_num)]
      ring
    rw [hm]
    norm_num
  have e2 : parallel_transfer_single cfg1 ValvePosition.Input ValvePosition.Output 4 (3/2)
      (PumpState.mk 0 6000 ValvePosition.Output) =
      some (2, PumpState.mk 0 6000 ValvePosition.Output) := by
    rw [parallel_transfer_single_succ, cfg1_round (3/2) _ (by norm_num)]
    have hm : (3/2:ℚ) - min (3/2:ℚ) 1 = 1/2 := by
      rw [min_eq_right (by norm_num)]
      norm_num
    rw [hm]
    norm_num [e3]
  rw [parallel_transfer_single_succ, cfg1_round (5/2) _ (by norm_num)]
  have hm : (5/2:ℚ) - min (5/2:ℚ) 1 = 3/2 := by
    rw [min_eq_right (by norm_num)]
    norm_num
  rw [hm]
  norm_num [e2]

/-- C2 amended: the single-pump transfer is a bounded loop whose rounds
each move min(outstanding, remaining_volume): with positive remaining
volume it finishes within n rounds once the requested volume is at most n
strokes plus the loop threshold; the strict per-round decrease fails when
remaining_volume is zero, and the multi-pump parallel_transfer is
expressed as one recursive self-call per round, so its depth equals the
round count, e.g. three levels for 2.5 mL through a 1 mL pump. -/
theorem c2_amended (cfg : PumpSpec) (fromV toV : ValvePosition) (n : ℕ) (v : ℚ)
    (st : PumpState)
    (hfrom : device_valve_effect (valve_select_chars fromV) = some fromV)
    (hto : device_valve_effect (valve_select_chars toV) = some toV)
    (hspml : 0 < steps_per_ml cfg) (hV : 0 < cfg.total_volume)
    (hp0 : 0 ≤ st.plunger)
    (hvel : st.top_velocity = cfg.default_top_velocity)
    (hR : 0 < remaining_volume cfg st) (hv0 : 0 ≤ v)
    (hn : v ≤ n * remaining_volume cfg st + 1/1000) :
    (∃ stF, transferFuel cfg fromV toV n v st = .done stF) ∧
    parallel_transfer_single cfg1 ValvePosition.Input ValvePosition.Output 5 (5/2)
      (PumpState.mk 0 6000 ValvePosition.Input) =
      some (3, PumpState.mk 0 6000 ValvePosition.Output) :=
  ⟨transfer_terminates cfg fromV toV hfrom hto hspml hV n v st hp0 hvel hR hv0 hn,
    parallel_cfg1_eval⟩

/-- C2 amended witness: the 5 mL pump at position 0 transfers 12 mL within
3 rounds. -/
theorem c2_amended_witness :
    (∃ stF, transferFuel cfg5 ValvePosition.Input ValvePosition.Output 3 12 st0 = .done stF) ∧
    parallel_transfer_single cfg1 ValvePosition.Input ValvePosition.Output 5 (5/2)
      (PumpState.mk 0 6000 ValvePosition.Input) =
      some (3, PumpState.mk 0 6000 ValvePosition.Output) := by
  have hrem5 : remaining_volume cfg5 st0 = 5 := by
    unfold remaining_volume current_volume step_to_volume st0
    rw [cfg5_spml]
    norm_num [cfg5]
  refine c2_amended cfg5 ValvePosition.Input ValvePosition.Output 3 12 st0
    (by decide) (by decide) (by rw [cfg5_spml]; norm_num) (by norm_num [cfg5])
    (by norm_num [st0]) rfl (by rw [hrem5]; norm_num) (by norm_num)
    (by rw [hrem5]; norm_num)

end Pycont
